import Mathlib

/-!
Verification development for the workout-video web application (`src/app.py`).

The application's core pipeline is embedded shallowly:

* `analyze_music_segments` — the structural segmentation of the audio track.
  The librosa calls (`librosa.load`, `beat_track`, `frames_to_time`) are
  external library calls; their outputs — the track duration and the list of
  detected beat timestamps — are taken as inputs of the embedded function.
  Python floats are modelled as rationals (`ℚ`), which preserves every
  comparison and arithmetic step the code performs.
* `get_matched_exercises` — catalog-driven matching.  The JSON catalog is an
  association list; `random.choice` is modelled by an injected stream of
  naturals `rng : ℕ → ℕ` consumed one value per selection, the chosen index
  being `rng k % length`.
* `create_workout_video` — media assembly.  The effectful moviepy / requests /
  filesystem operations are modelled by an explicit `World` of outcomes
  (per-item download result, per-item decode result, render result, per-file
  delete result) and an explicit `RunState` tracking the files on disk, the
  registered temp files, the opened media handles, the closed handles and
  whether the `finally` cleanup block ran.
-/

namespace WorkoutApp

/-- `find_nearest_beat(beat_times, target_time)` from `src/app.py`:
`beat_times[np.abs(beat_times - target_time).argmin()]`, i.e. the beat with
minimal absolute distance to the target, the earliest one on ties (numpy's
`argmin` returns the first occurrence of the minimum). -/
def find_nearest_beat : List ℚ → ℚ → ℚ
  | [], _ => 0
  | [b], _ => b
  | b :: c :: rest, target_time =>
    let r := find_nearest_beat (c :: rest) target_time
    if |b - target_time| ≤ |r - target_time| then b else r

/-- One labeled time segment, as built by `analyze_music_segments`
(`{'label': .., 'start': .., 'end': ..}`). -/
structure Segment where
  label : String
  start : ℚ
  «end» : ℚ
deriving DecidableEq

/-- The value held by the variable `intro_end_time` at the end of the
boundary computation in `analyze_music_segments` (`src/app.py` lines 87-95):
the proportional `duration * (1/5)` when fewer than 5 beats were detected,
otherwise the nearest beat to that target, reverted to the proportional
target when below `1.0`. -/
def intro_end_time (duration : ℚ) (beat_times : List ℚ) : ℚ :=
  if beat_times.length < 5 then duration * (1/5)
  else
    let target_intro_end := duration * (1/5)
    let snapped := find_nearest_beat beat_times target_intro_end
    if snapped < 1 then target_intro_end else snapped

/-- The value held by the variable `main_end_time` at the end of the boundary
computation in `analyze_music_segments` (`src/app.py` lines 87-96): the
proportional `duration * (4/5)` when fewer than 5 beats were detected,
otherwise the nearest beat to that target, reverted to the proportional
target when it does not exceed the (possibly already reverted)
`intro_end_time`. -/
def main_end_time (duration : ℚ) (beat_times : List ℚ) : ℚ :=
  if beat_times.length < 5 then duration * (4/5)
  else
    let target_main_end := duration * (4/5)
    let snapped := find_nearest_beat beat_times target_main_end
    if snapped ≤ intro_end_time duration beat_times then target_main_end else snapped

/-- The segment list returned by a successful run of `analyze_music_segments`
(`src/app.py` lines 81-102).  The duration and detected beat timestamps are
the outputs of the external librosa calls. -/
def analyze_music_segments (duration : ℚ) (beat_times : List ℚ) : List Segment :=
  [⟨"前奏 (熱身)", 0, intro_end_time duration beat_times⟩,
   ⟨"主旋律", intro_end_time duration beat_times, main_end_time duration beat_times⟩,
   ⟨"結尾 (緩和)", main_end_time duration beat_times, duration⟩]

/-- `find_nearest_beat` returns an element of a nonempty beat list. -/
theorem find_nearest_beat_mem (bt : List ℚ) (t : ℚ) (h : bt ≠ []) :
    find_nearest_beat bt t ∈ bt := by
  induction bt with
  | nil => exact absurd rfl h
  | cons b tl ih =>
    cases tl with
    | nil => simp [find_nearest_beat]
    | cons c rest =>
      rw [find_nearest_beat]
      split
      · exact List.mem_cons_self _ _
      · exact List.mem_cons_of_mem _ (ih (by simp))

/-- `find_nearest_beat` minimizes the absolute distance to the target among
the elements of the beat list. -/
theorem find_nearest_beat_min (bt : List ℚ) (t b : ℚ) (hb : b ∈ bt) :
    |find_nearest_beat bt t - t| ≤ |b - t| := by
  induction bt with
  | nil => simp at hb
  | cons a tl ih =>
    cases tl with
    | nil =>
      rcases List.mem_cons.mp hb with h | h
      · subst h; simp [find_nearest_beat]
      · simp at h
    | cons c rest =>
      rw [find_nearest_beat]
      rcases List.mem_cons.mp hb with h | h
      · subst h
        split
        · exact le_refl _
        · next hlt => exact le_of_lt (lt_of_not_le hlt)
      · split
        · next hle => exact le_trans hle (ih h)
        · exact ih h

/-- `intro_end_time` is strictly positive for a positive duration: the
fallback and the reverted value are `duration/5 > 0`, and a non-reverted
snapped value is at least `1`. -/
theorem intro_end_time_pos (duration : ℚ) (beat_times : List ℚ)
    (hd : 0 < duration) : 0 < intro_end_time duration beat_times := by
  unfold intro_end_time
  split
  · linarith
  · dsimp only
    split
    · linarith
    · next h => linarith [not_lt.mp h]

/-- When fewer than 5 beats were detected, or the clamped intro boundary is
at most `duration * (4/5)`, the two final boundaries are ordered weakly. -/
theorem intro_le_main_of (duration : ℚ) (beat_times : List ℚ) (hd : 0 < duration)
    (h : beat_times.length < 5 ∨ intro_end_time duration beat_times ≤ duration * (4/5)) :
    intro_end_time duration beat_times ≤ main_end_time duration beat_times := by
  unfold main_end_time
  by_cases hlen : beat_times.length < 5
  · rw [if_pos hlen]
    unfold intro_end_time
    rw [if_pos hlen]
    linarith
  · rw [if_neg hlen]
    dsimp only
    rcases h with h | h
    · exact absurd h hlen
    · split
      · exact h
      · next hgt => exact le_of_lt (lt_of_not_le hgt)

/-- Strict version of `intro_le_main_of`. -/
theorem intro_lt_main_of (duration : ℚ) (beat_times : List ℚ) (hd : 0 < duration)
    (h : beat_times.length < 5 ∨ intro_end_time duration beat_times < duration * (4/5)) :
    intro_end_time duration beat_times < main_end_time duration beat_times := by
  unfold main_end_time
  by_cases hlen : beat_times.length < 5
  · rw [if_pos hlen]
    unfold intro_end_time
    rw [if_pos hlen]
    linarith
  · rw [if_neg hlen]
    dsimp only
    rcases h with h | h
    · exact absurd h hlen
    · split
      · exact h
      · next hgt => exact lt_of_not_le hgt

/-- When fewer than 5 beats were detected, or every detected beat is at most
`duration`, the final main boundary is at most `duration`. -/
theorem main_le_duration_of (duration : ℚ) (beat_times : List ℚ) (hd : 0 < duration)
    (h : beat_times.length < 5 ∨ ∀ b ∈ beat_times, b ≤ duration) :
    main_end_time duration beat_times ≤ duration := by
  unfold main_end_time
  by_cases hlen : beat_times.length < 5
  · rw [if_pos hlen]; linarith
  · rw [if_neg hlen]
    dsimp only
    rcases h with h | h
    · exact absurd h hlen
    · split
      · linarith
      · refine h _ (find_nearest_beat_mem _ _ ?_)
        intro hnil
        rw [hnil] at hlen
        simp at hlen

/-- Strict version of `main_le_duration_of`. -/
theorem main_lt_duration_of (duration : ℚ) (beat_times : List ℚ) (hd : 0 < duration)
    (h : beat_times.length < 5 ∨ ∀ b ∈ beat_times, b < duration) :
    main_end_time duration beat_times < duration := by
  unfold main_end_time
  by_cases hlen : beat_times.length < 5
  · rw [if_pos hlen]; linarith
  · rw [if_neg hlen]
    dsimp only
    rcases h with h | h
    · exact absurd h hlen
    · split
      · linarith
      · refine h _ (find_nearest_beat_mem _ _ ?_)
        intro hnil
        rw [hnil] at hlen
        simp at hlen

/-- Two open rational intervals with the first ending no later than the
second starts are disjoint. -/
theorem Ioo_disjoint_of_le (a b c d : ℚ) (h : b ≤ c) :
    Disjoint (Set.Ioo a b) (Set.Ioo c d) := by
  rw [Set.disjoint_left]
  rintro x ⟨_, h1⟩ ⟨h2, _⟩
  linarith

/-- C2 (counterexample): with `duration = 300` and the five detected beats
all clustered at `270..274` s, the snapped intro boundary is `270` while the
main boundary reverts to `240`, so the first segment `[0, 270]` and the
third segment `[240, 300]` overlap on `(240, 270)` — the spans of the three
returned segments are not pairwise disjoint, refuting the claim as stated. -/
theorem c2_counterexample :
    ∃ s t, s ∈ analyze_music_segments 300 [270, 271, 272, 273, 274] ∧
      t ∈ analyze_music_segments 300 [270, 271, 272, 273, 274] ∧ s ≠ t ∧
      ¬ Disjoint (Set.Ioo s.start s.«end») (Set.Ioo t.start t.«end») := by
  have hi : intro_end_time 300 [270, 271, 272, 273, 274] = 270 := by
    norm_num [intro_end_time, find_nearest_beat]
  have hm : main_end_time 300 [270, 271, 272, 273, 274] = 240 := by
    norm_num [main_end_time, intro_end_time, find_nearest_beat]
  have hL : analyze_music_segments 300 [270, 271, 272, 273, 274] =
      [⟨"前奏 (熱身)", 0, 270⟩, ⟨"主旋律", 270, 240⟩, ⟨"結尾 (緩和)", 240, 300⟩] := by
    unfold analyze_music_segments
    rw [hi, hm]
  refine ⟨⟨"前奏 (熱身)", 0, 270⟩, ⟨"結尾 (緩和)", 240, 300⟩, ?_, ?_, ?_, ?_⟩
  · rw [hL]; simp
  · rw [hL]; simp
  · intro h
    exact absurd (congrArg Segment.start h) (by norm_num)
  · rw [Set.not_disjoint_iff]
    exact ⟨250, ⟨by norm_num, by norm_num⟩, ⟨by norm_num, by norm_num⟩⟩

/-- C2 (amended): for every positive duration, a successful run of
`analyze_music_segments` returns exactly three labeled segments that are
contiguous, start at `0`, end at `duration`, and whose signed spans sum to
`duration`; whenever fewer than 5 beats were detected, or the clamped intro
boundary is at most `duration * (4/5)` and every detected beat is at most
`duration`, the boundaries are additionally ordered and the three open spans
are pairwise disjoint. -/
theorem c2_amended (duration : ℚ) (beat_times : List ℚ) (hd : 0 < duration) :
    (analyze_music_segments duration beat_times).length = 3 ∧
    (analyze_music_segments duration beat_times).map Segment.label =
      ["前奏 (熱身)", "主旋律", "結尾 (緩和)"] ∧
    (∃ i m, analyze_music_segments duration beat_times =
        [⟨"前奏 (熱身)", 0, i⟩, ⟨"主旋律", i, m⟩, ⟨"結尾 (緩和)", m, duration⟩] ∧
      (i - 0) + (m - i) + (duration - m) = duration) ∧
    ((beat_times.length < 5 ∨
        (intro_end_time duration beat_times ≤ duration * (4/5) ∧
          ∀ b ∈ beat_times, b ≤ duration)) →
      0 < intro_end_time duration beat_times ∧
      intro_end_time duration beat_times ≤ main_end_time duration beat_times ∧
      main_end_time duration beat_times ≤ duration ∧
      List.Pairwise
        (fun s t => Disjoint (Set.Ioo s.start s.«end») (Set.Ioo t.start t.«end»))
        (analyze_music_segments duration beat_times)) := by
  refine ⟨rfl, rfl, ⟨intro_end_time duration beat_times, main_end_time duration beat_times,
    rfl, by ring⟩, ?_⟩
  intro h
  have him : intro_end_time duration beat_times ≤ main_end_time duration beat_times :=
    intro_le_main_of duration beat_times hd (h.imp id And.left)
  have hmd : main_end_time duration beat_times ≤ duration :=
    main_le_duration_of duration beat_times hd (h.imp id And.right)
  refine ⟨intro_end_time_pos duration beat_times hd, him, hmd, ?_⟩
  unfold analyze_music_segments
  refine List.Pairwise.cons ?_ (List.Pairwise.cons ?_ (List.pairwise_singleton _ _))
  · intro t ht
    rcases List.mem_cons.mp ht with h' | h'
    · subst h'
      exact Ioo_disjoint_of_le _ _ _ _ (le_refl _)
    · rcases List.mem_singleton.mp h' with h'
      subst h'
      exact Ioo_disjoint_of_le _ _ _ _ him
  · intro t ht
    rcases List.mem_singleton.mp ht with h'
    subst h'
    exact Ioo_disjoint_of_le _ _ _ _ (le_refl _)

/-- Witness for `c2_amended`: concrete instantiation at `duration = 300` with
no detected beats (proportional fallback), discharging both the positivity
hypothesis and the ordering side condition. -/
theorem c2_amended_witness :
    (0 : ℚ) < 300 ∧
    List.Pairwise
      (fun s t => Disjoint (Set.Ioo s.start s.«end») (Set.Ioo t.start t.«end»))
      (analyze_music_segments 300 []) :=
  ⟨by norm_num, ((c2_amended 300 [] (by norm_num)).2.2.2 (Or.inl (by decide))).2.2.2⟩

/-- C3 (confirmed): the boundary computation of `analyze_music_segments`.
With fewer than 5 detected beats the boundaries are exactly
`duration * (1/5)` and `duration * (4/5)` (for `duration = 300`: `60` and
`240`); otherwise each boundary is a detected beat of minimal absolute
distance to `duration/5` resp. `4 * duration/5`, then clamped: an intro
boundary below `1.0` reverts to `duration * (1/5)`, and a main boundary not
exceeding the (possibly reverted) intro boundary reverts to
`duration * (4/5)`. -/
theorem c3_boundaries (duration : ℚ) (beat_times : List ℚ) :
    (beat_times.length < 5 →
      intro_end_time duration beat_times = duration * (1/5) ∧
      main_end_time duration beat_times = duration * (4/5)) ∧
    (beat_times.length < 5 → duration = 300 →
      intro_end_time duration beat_times = 60 ∧
      main_end_time duration beat_times = 240) ∧
    (5 ≤ beat_times.length →
      (find_nearest_beat beat_times (duration * (1/5)) ∈ beat_times ∧
        ∀ b ∈ beat_times,
          |find_nearest_beat beat_times (duration * (1/5)) - duration * (1/5)| ≤
            |b - duration * (1/5)|) ∧
      (find_nearest_beat beat_times (duration * (4/5)) ∈ beat_times ∧
        ∀ b ∈ beat_times,
          |find_nearest_beat beat_times (duration * (4/5)) - duration * (4/5)| ≤
            |b - duration * (4/5)|) ∧
      intro_end_time duration beat_times =
        (if find_nearest_beat beat_times (duration * (1/5)) < 1 then duration * (1/5)
         else find_nearest_beat beat_times (duration * (1/5))) ∧
      main_end_time duration beat_times =
        (if find_nearest_beat beat_times (duration * (4/5)) ≤ intro_end_time duration beat_times
         then duration * (4/5)
         else find_nearest_beat beat_times (duration * (4/5)))) := by
  refine ⟨?_, ?_, ?_⟩
  · intro hlen
    constructor
    · unfold intro_end_time; rw [if_pos hlen]
    · unfold main_end_time; rw [if_pos hlen]
  · intro hlen hdur
    subst hdur
    constructor
    · unfold intro_end_time; rw [if_pos hlen]; norm_num
    · unfold main_end_time; rw [if_pos hlen]; norm_num
  · intro hlen
    have hnil : beat_times ≠ [] := by
      intro hn
      rw [hn] at hlen
      simp at hlen
    have hlen' : ¬ beat_times.length < 5 := not_lt.mpr hlen
    refine ⟨⟨find_nearest_beat_mem _ _ hnil, fun b hb => find_nearest_beat_min _ _ b hb⟩,
      ⟨find_nearest_beat_mem _ _ hnil, fun b hb => find_nearest_beat_min _ _ b hb⟩, ?_, ?_⟩
    · unfold intro_end_time
      rw [if_neg hlen']
    · unfold main_end_time
      rw [if_neg hlen']

/-- Witness for `c3_boundaries`: for `duration = 300` and beats
`[10, 20, 30, 40, 50]` (at least 5 beats), the snapped intro boundary is the
beat `50`, a member of the beat list achieving the minimal distance to
`60`. -/
theorem c3_boundaries_witness :
    5 ≤ ([10, 20, 30, 40, 50] : List ℚ).length ∧
    find_nearest_beat [10, 20, 30, 40, 50] ((300 : ℚ) * (1/5)) ∈
      ([10, 20, 30, 40, 50] : List ℚ) ∧
    intro_end_time 300 [10, 20, 30, 40, 50] =
      (if find_nearest_beat [10, 20, 30, 40, 50] ((300 : ℚ) * (1/5)) < 1
       then (300 : ℚ) * (1/5)
       else find_nearest_beat [10, 20, 30, 40, 50] ((300 : ℚ) * (1/5))) :=
  ⟨by decide,
   ((c3_boundaries 300 [10, 20, 30, 40, 50]).2.2 (by decide)).1.1,
   ((c3_boundaries 300 [10, 20, 30, 40, 50]).2.2 (by decide)).2.2.1⟩

/-- C4 (counterexample): with `duration = 300` and the five detected beats
`280..284`, the snapped intro boundary is `280` and the main boundary
reverts to `240`, so the middle segment is `[280, 240]` with
`start_time > end_time`, refuting the claim as stated. -/
theorem c4_counterexample :
    ∃ s ∈ analyze_music_segments 300 [280, 281, 282, 283, 284],
      ¬ s.start < s.«end» := by
  have hi : intro_end_time 300 [280, 281, 282, 283, 284] = 280 := by
    norm_num [intro_end_time, find_nearest_beat]
  have hm : main_end_time 300 [280, 281, 282, 283, 284] = 240 := by
    norm_num [main_end_time, intro_end_time, find_nearest_beat]
  have hL : analyze_music_segments 300 [280, 281, 282, 283, 284] =
      [⟨"前奏 (熱身)", 0, 280⟩, ⟨"主旋律", 280, 240⟩, ⟨"結尾 (緩和)", 240, 300⟩] := by
    unfold analyze_music_segments
    rw [hi, hm]
  refine ⟨⟨"主旋律", 280, 240⟩, ?_, ?_⟩
  · rw [hL]; simp
  · norm_num

/-- C4 (amended): every segment returned by `analyze_music_segments`
satisfies `start_time < end_time` provided fewer than 5 beats were detected,
or the clamped intro boundary is strictly below `duration * (4/5)` and every
detected beat is strictly below `duration`. -/
theorem c4_amended (duration : ℚ) (beat_times : List ℚ) (hd : 0 < duration)
    (h : beat_times.length < 5 ∨
      (intro_end_time duration beat_times < duration * (4/5) ∧
        ∀ b ∈ beat_times, b < duration)) :
    ∀ s ∈ analyze_music_segments duration beat_times, s.start < s.«end» := by
  have h1 : 0 < intro_end_time duration beat_times := intro_end_time_pos _ _ hd
  have h2 : intro_end_time duration beat_times < main_end_time duration beat_times :=
    intro_lt_main_of duration beat_times hd (h.imp id And.left)
  have h3 : main_end_time duration beat_times < duration :=
    main_lt_duration_of duration beat_times hd (h.imp id And.right)
  intro s hs
  unfold analyze_music_segments at hs
  rcases List.mem_cons.mp hs with h' | hs
  · subst h'; exact h1
  rcases List.mem_cons.mp hs with h' | hs
  · subst h'; exact h2
  rcases List.mem_singleton.mp hs with h'
  subst h'; exact h3

/-- Witness for `c4_amended`: concrete instantiation at `duration = 300`
with no detected beats, discharging both hypotheses. -/
theorem c4_amended_witness :
    (0 : ℚ) < 300 ∧
    ∀ s ∈ analyze_music_segments 300 [], s.start < s.«end» :=
  ⟨by norm_num, c4_amended 300 [] (by norm_num) (Or.inl (by decide))⟩

/-- One exercise record of the JSON catalog (`standing_exercise.json`):
`{name, gif_url, narration_text}`. -/
structure Exercise where
  name : String
  gif_url : String
  narration_text : String
deriving DecidableEq, Inhabited

/-- The loaded catalog: a mapping from category key (`warmup` / `core` /
`cooldown`) to difficulty-tier key (`low` / `medium` / `high`) to the list of
available exercises, modelled as an association list. -/
abbrev Database := List (String × List (String × List Exercise))

/-- One entry of the matched playlist built by `get_matched_exercises`:
`{'segment_label': .., 'duration': .., 'exercise': ..}`. -/
structure PlaylistEntry where
  segment_label : String
  duration : ℚ
  exercise : Exercise
deriving DecidableEq

/-- The result dictionary of `get_matched_exercises`:
`{'success': True, 'playlist': ..}` or `{'success': False, 'error': ..}`. -/
inductive MatchResult where
  | success (playlist : List PlaylistEntry)
  | failure (error : String)
deriving DecidableEq

/-- Python `dict.get` on a small literal mapping, modelled on an association
list. -/
def mapGet (m : List (String × String)) (k : String) : Option String :=
  (m.find? (fun p => p.1 == k)).map (·.2)

/-- The `difficulty_map` literal of `get_matched_exercises`
(`src/app.py` line 108). -/
def difficulty_map : List (String × String) :=
  [("初級", "low"), ("中級", "medium"), ("高級", "high")]

/-- The `segment_map` literal of `get_matched_exercises`
(`src/app.py` line 109). -/
def segment_map : List (String × String) :=
  [("前奏 (熱身)", "warmup"), ("主旋律", "core"), ("結尾 (緩和)", "cooldown")]

/-- `difficulty_key = difficulty_map.get(difficulty, 'low')`
(`src/app.py` line 110). -/
def difficulty_key (difficulty : String) : String :=
  (mapGet difficulty_map difficulty).getD "low"

/-- The double lookup `database[category_key][difficulty_key]`; `none` models
the `KeyError` raised when either key is absent. -/
def dbGet2 (db : Database) (category_key tier_key : String) : Option (List Exercise) :=
  match db.find? (fun p => p.1 == category_key) with
  | none => none
  | some p => (p.2.find? (fun q => q.1 == tier_key)).map (·.2)

/-- The per-segment loop of `get_matched_exercises` (`src/app.py` lines
114-129), threading the accumulated `matched_playlist` and the number of
`random.choice` calls made so far.  `random.choice(available_actions)` is
modelled as the element at index `rng k % length` of the (non-empty) list. -/
def get_matched_exercises_go (database : Database) (dkey : String) (rng : ℕ → ℕ) :
    List Segment → List PlaylistEntry → ℕ → MatchResult
  | [], matched_playlist, _ => .success matched_playlist
  | seg :: rest, matched_playlist, k =>
    match mapGet segment_map seg.label with
    | none => get_matched_exercises_go database dkey rng rest matched_playlist k
    | some category_key =>
      match dbGet2 database category_key dkey with
      | none => .failure ("資料庫結構錯誤，找不到 " ++ category_key ++ "/" ++ dkey)
      | some available_actions =>
        if available_actions.isEmpty then
          get_matched_exercises_go database dkey rng rest matched_playlist k
        else
          get_matched_exercises_go database dkey rng rest
            (matched_playlist ++
              [⟨seg.label, seg.«end» - seg.start,
                available_actions.getD (rng k % available_actions.length) default⟩])
            (k + 1)

/-- `get_matched_exercises(segments, difficulty, database)` from
`src/app.py` lines 107-130.  `database` is `none` when the catalog failed to
load (`load_exercise_database` returned `None`); the Python truthiness test
`if not database` also fires on an empty catalog dictionary. -/
def get_matched_exercises (segments : List Segment) (difficulty : String)
    (database : Option Database) (rng : ℕ → ℕ) : MatchResult :=
  let dkey := difficulty_key difficulty
  match database with
  | none => .failure "資料庫未成功載入"
  | some db =>
    if db.isEmpty then .failure "資料庫未成功載入"
    else get_matched_exercises_go db dkey rng segments [] 0

/-- If the catalog misses the lookup path of the `主旋律` (core) segment,
the per-segment loop always ends in the structure-error failure, whatever
was already matched. -/
theorem go_failure_of_core_missing (db : Database) (dkey : String) (rng : ℕ → ℕ)
    (hcore : dbGet2 db "core" dkey = none) :
    ∀ (l : List Segment) (acc : List PlaylistEntry) (k : ℕ),
      (∃ s ∈ l, s.label = "主旋律") →
      ∃ cat, get_matched_exercises_go db dkey rng l acc k =
        .failure ("資料庫結構錯誤，找不到 " ++ cat ++ "/" ++ dkey) := by
  intro l
  induction l with
  | nil =>
    intro acc k h
    rcases h with ⟨s, hs, _⟩
    simp at hs
  | cons seg rest ih =>
    intro acc k h
    rw [get_matched_exercises_go]
    by_cases hlab : seg.label = "主旋律"
    · rw [hlab]
      have : mapGet segment_map "主旋律" = some "core" := by decide
      rw [this]
      dsimp only
      rw [hcore]
      exact ⟨"core", rfl⟩
    · have hrest : ∃ s ∈ rest, s.label = "主旋律" := by
        rcases h with ⟨s, hs, hsl⟩
        rcases List.mem_cons.mp hs with h' | h'
        · exact absurd (h' ▸ hsl) hlab
        · exact ⟨s, h', hsl⟩
      match hmg : mapGet segment_map seg.label with
      | none => exact ih acc k hrest
      | some category_key =>
        dsimp only
        match hdb : dbGet2 db category_key dkey with
        | none => exact ⟨category_key, rfl⟩
        | some available_actions =>
          dsimp only
          split
          · exact ih acc k hrest
          · exact ih _ (k + 1) hrest

/-- An unrecognized difficulty string resolves to the `low` tier key
(`difficulty_map.get(difficulty, 'low')`). -/
theorem difficulty_key_unrecognized (difficulty : String)
    (h1 : difficulty ≠ "初級") (h2 : difficulty ≠ "中級") (h3 : difficulty ≠ "高級") :
    difficulty_key difficulty = "low" := by
  have e1 : (("初級" : String) == difficulty) = false := beq_eq_false_iff_ne.mpr (Ne.symm h1)
  have e2 : (("中級" : String) == difficulty) = false := beq_eq_false_iff_ne.mpr (Ne.symm h2)
  have e3 : (("高級" : String) == difficulty) = false := beq_eq_false_iff_ne.mpr (Ne.symm h3)
  simp [difficulty_key, mapGet, difficulty_map, List.find?, e1, e2, e3]

/-- Two difficulty strings resolving to the same tier key make
`get_matched_exercises` behave identically. -/
theorem get_matched_exercises_key_congr (segments : List Segment)
    (database : Option Database) (rng : ℕ → ℕ) (d1 d2 : String)
    (h : difficulty_key d1 = difficulty_key d2) :
    get_matched_exercises segments d1 database rng =
      get_matched_exercises segments d2 database rng := by
  cases database with
  | none => rfl
  | some db => simp only [get_matched_exercises, h]

/-- C5 (confirmed): a missing or unloaded catalog (the `None` returned by
`load_exercise_database`, or an empty catalog dictionary — both falsy) makes
`get_matched_exercises` fail before any segment is processed, and a loaded
catalog missing the looked-up category/tier path of the core (`主旋律`)
segment makes the whole match abort with the structure-error failure, whose
result carries no playlist entries for any segment. -/
theorem c5_catalog_failures :
    (∀ (segments : List Segment) (difficulty : String) (rng : ℕ → ℕ),
      get_matched_exercises segments difficulty none rng =
        .failure "資料庫未成功載入") ∧
    (∀ (segments : List Segment) (difficulty : String) (rng : ℕ → ℕ),
      get_matched_exercises segments difficulty (some []) rng =
        .failure "資料庫未成功載入") ∧
    (∀ (segments : List Segment) (difficulty : String) (db : Database) (rng : ℕ → ℕ),
      db.isEmpty = false →
      dbGet2 db "core" (difficulty_key difficulty) = none →
      (∃ s ∈ segments, s.label = "主旋律") →
      (∃ cat, get_matched_exercises segments difficulty (some db) rng =
        .failure ("資料庫結構錯誤，找不到 " ++ cat ++ "/" ++ difficulty_key difficulty)) ∧
      ∀ playlist, get_matched_exercises segments difficulty (some db) rng ≠
        .success playlist) := by
  refine ⟨fun _ _ _ => rfl, fun _ _ _ => rfl, ?_⟩
  intro segments difficulty db rng hne hcore hseg
  have hrun : get_matched_exercises segments difficulty (some db) rng =
      get_matched_exercises_go db (difficulty_key difficulty) rng segments [] 0 := by
    simp only [get_matched_exercises, hne]
    rfl
  obtain ⟨cat, hcat⟩ :=
    go_failure_of_core_missing db (difficulty_key difficulty) rng hcore segments [] 0 hseg
  refine ⟨⟨cat, hrun.trans hcat⟩, ?_⟩
  intro playlist h
  rw [hrun, hcat] at h
  exact MatchResult.noConfusion h

/-- Witness for `c5_catalog_failures`: a concrete nonempty catalog holding
only the `warmup` category, matched against a single core segment, yields
the structure-error failure. -/
theorem c5_catalog_failures_witness :
    (([("warmup", [("low", [⟨"深蹲", "u", "t"⟩])])] : Database).isEmpty = false) ∧
    ∃ cat, get_matched_exercises [⟨"主旋律", 0, 10⟩] "初級"
        (some [("warmup", [("low", [⟨"深蹲", "u", "t"⟩])])]) (fun _ => 0) =
      .failure ("資料庫結構錯誤，找不到 " ++ cat ++ "/" ++ difficulty_key "初級") :=
  ⟨rfl,
   (c5_catalog_failures.2.2 [⟨"主旋律", 0, 10⟩] "初級"
      [("warmup", [("low", [⟨"深蹲", "u", "t"⟩])])] (fun _ => 0) rfl (by decide)
      ⟨⟨"主旋律", 0, 10⟩, List.mem_singleton_self _, rfl⟩).1⟩

/-- C9 (confirmed): for a difficulty value outside the recognized set,
`get_matched_exercises` behaves identically — same catalog lists consulted,
same playlist under the same random choices — to an explicit request for the
low tier (the recognized string `初級`, which maps to `low`). -/
theorem c9_default_low (segments : List Segment) (database : Option Database)
    (rng : ℕ → ℕ) (difficulty : String) (h1 : difficulty ≠ "初級")
    (h2 : difficulty ≠ "中級") (h3 : difficulty ≠ "高級") :
    get_matched_exercises segments difficulty database rng =
      get_matched_exercises segments "初級" database rng :=
  get_matched_exercises_key_congr segments database rng difficulty "初級"
    ((difficulty_key_unrecognized difficulty h1 h2 h3).trans (by decide))

/-- Witness for `c9_default_low`: the unrecognized string `medium` at a
concrete call. -/
theorem c9_default_low_witness :
    (("medium" : String) ≠ "初級" ∧ ("medium" : String) ≠ "中級" ∧
      ("medium" : String) ≠ "高級") ∧
    get_matched_exercises [] "medium" none (fun _ => 0) =
      get_matched_exercises [] "初級" none (fun _ => 0) :=
  ⟨⟨by decide, by decide, by decide⟩,
   c9_default_low [] none (fun _ => 0) "medium" (by decide) (by decide) (by decide)⟩

/-- C10 (confirmed): the difficulty values `get_matched_exercises`
recognizes are exactly the three strings `初級`, `中級`, `高級` (mapped to
`low`, `medium`, `high`); every other string — including the literal tier
names `medium` and `high` — resolves to the `low` tier, so a caller passing
the English tier names receives the same behavior as a low-tier request. -/
theorem c10_difficulty_recognition :
    (∀ difficulty : String,
      difficulty_key difficulty =
        if difficulty = "初級" then "low"
        else if difficulty = "中級" then "medium"
        else if difficulty = "高級" then "high"
        else "low") ∧
    (∀ (segments : List Segment) (database : Option Database) (rng : ℕ → ℕ),
      get_matched_exercises segments "medium" database rng =
        get_matched_exercises segments "初級" database rng ∧
      get_matched_exercises segments "high" database rng =
        get_matched_exercises segments "初級" database rng) := by
  constructor
  · intro difficulty
    by_cases h1 : difficulty = "初級"
    · subst h1; decide
    by_cases h2 : difficulty = "中級"
    · subst h2; decide
    by_cases h3 : difficulty = "高級"
    · subst h3; decide
    rw [if_neg h1, if_neg h2, if_neg h3]
    exact difficulty_key_unrecognized difficulty h1 h2 h3
  · intro segments database rng
    constructor
    · exact get_matched_exercises_key_congr segments database rng "medium" "初級"
        ((difficulty_key_unrecognized "medium" (by decide) (by decide) (by decide)).trans
          (by decide))
    · exact get_matched_exercises_key_congr segments database rng "high" "初級"
        ((difficulty_key_unrecognized "high" (by decide) (by decide) (by decide)).trans
          (by decide))

/-- Outcome of the download block for one playlist item (`src/app.py` lines
200-208): the `requests.get` / `raise_for_status` step may fail before
`open(temp_gif_path, 'wb')` creates the file, or the streaming
`shutil.copyfileobj` may fail after the file has been created (in which case
the `temp_files.append` on line 205 is never reached). -/
inductive DlOutcome where
  | ok
  | failBeforeCreate
  | failAfterCreate
deriving DecidableEq

/-- The behavior of the external world during one `create_workout_video`
run: whether `mp.AudioFileClip` succeeds, the download outcome per item
index, whether `mp.VideoFileClip` succeeds per item, whether
`write_videofile` succeeds, whether a failed render had already written a
(partial) file at the output location, and whether `os.remove` succeeds per
temp file. -/
structure World where
  audioOk : Bool
  dl : ℕ → DlOutcome
  decodeOk : ℕ → Bool
  renderOk : Bool
  renderLeavesFile : Bool
  removeOk : ℕ → Bool

/-- The media handles a run can open: the audio decoder
(`mp.AudioFileClip`), the per-item downloaded-asset decoder
(`mp.VideoFileClip`, tracked in `temp_gif_clips`), the per-item composed
looped clip (tracked in `video_clips`), the concatenated clip
(`final_video_no_audio`) and the final muxed clip (`final_video`). -/
inductive Handle where
  | audio
  | gifReader (i : ℕ)
  | composedClip (i : ℕ)
  | concatClip
  | finalClip
deriving DecidableEq

/-- Observable state of a `create_workout_video` run.  `disk` holds the
indices `i` whose temp file `temp_gif_{i}.gif` currently exists on disk;
`temp_files`, `temp_gif_clips` and `video_clips` mirror the Python lists of
the same names (by item index); the three booleans mirror the nullable
variables `audio_clip`, `final_video_no_audio`, `final_video`;
`output_exists` tracks a file at the output location; `closed` lists the
handles closed so far and `cleanup_ran` whether the `finally` block ran. -/
structure RunState where
  disk : List ℕ
  temp_files : List ℕ
  temp_gif_clips : List ℕ
  video_clips : List ℕ
  audio_clip : Bool
  final_video_no_audio : Bool
  final_video : Bool
  output_exists : Bool
  closed : List Handle
  cleanup_ran : Bool

/-- State at function entry (`src/app.py` lines 176-183). -/
def initState : RunState :=
  ⟨[], [], [], [], false, false, false, false, [], false⟩

/-- The handles currently open in a state. -/
def openedHandles (s : RunState) : List Handle :=
  (if s.audio_clip then [Handle.audio] else []) ++
  s.temp_gif_clips.map Handle.gifReader ++
  s.video_clips.map Handle.composedClip ++
  (if s.final_video_no_audio then [Handle.concatClip] else []) ++
  (if s.final_video then [Handle.finalClip] else [])

/-- The playlist loop of `create_workout_video` (`src/app.py` lines
192-217), processing the given item indices in order.  Returns the state
after the loop together with `true` when a `mp.VideoFileClip` decode failure
raised out of the loop (that call sits outside the per-item `try`, so its
exception aborts the run).  A download failure only skips the item
(`continue`); when the streaming copy fails after the file was created, the
file is on disk but was never appended to `temp_files`. -/
def processItems (w : World) : List ℕ → RunState → RunState × Bool
  | [], s => (s, false)
  | i :: rest, s =>
    match w.dl i with
    | .failBeforeCreate => processItems w rest s
    | .failAfterCreate => processItems w rest { s with disk := s.disk ++ [i] }
    | .ok =>
      let s1 := { s with disk := s.disk ++ [i], temp_files := s.temp_files ++ [i] }
      if w.decodeOk i then
        processItems w rest
          { s1 with temp_gif_clips := s1.temp_gif_clips ++ [i],
                    video_clips := s1.video_clips ++ [i] }
      else (s1, true)

/-- The `finally` block of `create_workout_video` (`src/app.py` lines
249-277): close `final_video`, `final_video_no_audio` and `audio_clip` when
they were opened (the `if` guards), close every clip in `video_clips` and
`temp_gif_clips`, then delete every file registered in `temp_files` that
exists on disk, tolerating a failing `os.remove` (the file then simply
stays). -/
def cleanup (w : World) (s : RunState) : RunState :=
  { s with
    closed :=
      (if s.final_video then [Handle.finalClip] else []) ++
      (if s.final_video_no_audio then [Handle.concatClip] else []) ++
      (if s.audio_clip then [Handle.audio] else []) ++
      s.video_clips.map Handle.composedClip ++
      s.temp_gif_clips.map Handle.gifReader,
    disk := s.disk.filter (fun i => !(s.temp_files.contains i && w.removeOk i)),
    cleanup_ran := true }

/-- Result of a run as observable to the caller and in the log: the returned
`output_filename` on success, the `return None` after the
"沒有任何影片片段可合成" message when no composed clip remained, or the
`return None` from the run-level `except` handler. -/
inductive RunOutcome where
  | success (filename : String)
  | noClips
  | exn
deriving DecidableEq

/-- `create_workout_video(music_filepath, playlist, output_filename)` from
`src/app.py` lines 172-277, for a playlist of `n` items.  The item contents
(`gif_url`, `duration`) only influence the run through the world's per-item
outcomes, so the playlist is represented by its length. -/
def create_workout_video (w : World) (n : ℕ) (output_filename : String) :
    RunOutcome × RunState :=
  if w.audioOk then
    let p := processItems w (List.range n) { initState with audio_clip := true }
    if p.2 then (.exn, cleanup w p.1)
    else if p.1.video_clips.isEmpty then (.noClips, cleanup w p.1)
    else
      let s2 := { p.1 with final_video_no_audio := true, final_video := true }
      if w.renderOk then
        (.success output_filename, cleanup w { s2 with output_exists := true })
      else (.exn, cleanup w { s2 with output_exists := w.renderLeavesFile })
  else (.exn, cleanup w initState)

/-- The playlist loop never touches the handle variables of the assembly
stage nor the cleanup bookkeeping. -/
theorem processItems_frame (w : World) (l : List ℕ) (s : RunState) :
    (processItems w l s).1.audio_clip = s.audio_clip ∧
    (processItems w l s).1.final_video_no_audio = s.final_video_no_audio ∧
    (processItems w l s).1.final_video = s.final_video ∧
    (processItems w l s).1.output_exists = s.output_exists ∧
    (processItems w l s).1.closed = s.closed ∧
    (processItems w l s).1.cleanup_ran = s.cleanup_ran := by
  induction l generalizing s with
  | nil => exact ⟨rfl, rfl, rfl, rfl, rfl, rfl⟩
  | cons i rest ih =>
    cases hdl : w.dl i with
    | failBeforeCreate =>
      simp only [processItems, hdl]
      exact ih s
    | failAfterCreate =>
      simp only [processItems, hdl]
      exact ih _
    | ok =>
      simp only [processItems, hdl]
      cases hdec : w.decodeOk i with
      | true =>
        simp only [hdec, if_true]
        exact ih _
      | false =>
        rw [if_neg Bool.false_ne_true]
        exact ⟨rfl, rfl, rfl, rfl, rfl, rfl⟩

/-- Membership in `temp_files` and `video_clips` survives the rest of the
loop. -/
theorem processItems_mono (w : World) (l : List ℕ) (s : RunState) (i : ℕ) :
    (i ∈ s.temp_files → i ∈ (processItems w l s).1.temp_files) ∧
    (i ∈ s.video_clips → i ∈ (processItems w l s).1.video_clips) := by
  induction l generalizing s with
  | nil => exact ⟨id, id⟩
  | cons j rest ih =>
    cases hdl : w.dl j with
    | failBeforeCreate =>
      simp only [processItems, hdl]
      exact ih s
    | failAfterCreate =>
      simp only [processItems, hdl]
      exact ih { s with disk := s.disk ++ [j] }
    | ok =>
      simp only [processItems, hdl]
      cases hdec : w.decodeOk j with
      | true =>
        simp only [hdec, if_true]
        constructor
        · intro hmem
          exact (ih _).1 (List.mem_append_left _ hmem)
        · intro hmem
          exact (ih _).2 (List.mem_append_left _ hmem)
      | false =>
        rw [if_neg Bool.false_ne_true]
        constructor
        · intro hmem
          exact List.mem_append_left _ hmem
        · exact id

/-- Everything the loop adds to `temp_files` is a processed item whose
download fully succeeded; everything it adds to `video_clips` additionally
decoded successfully. -/
theorem processItems_sub (w : World) (l : List ℕ) (s : RunState) (i : ℕ) :
    (i ∈ (processItems w l s).1.temp_files →
      i ∈ s.temp_files ∨ (i ∈ l ∧ w.dl i = .ok)) ∧
    (i ∈ (processItems w l s).1.video_clips →
      i ∈ s.video_clips ∨ (i ∈ l ∧ w.dl i = .ok ∧ w.decodeOk i = true)) := by
  induction l generalizing s with
  | nil => exact ⟨Or.inl, Or.inl⟩
  | cons j rest ih =>
    cases hdl : w.dl j with
    | failBeforeCreate =>
      simp only [processItems, hdl]
      constructor
      · intro hmem
        rcases (ih s).1 hmem with h | ⟨h1, h2⟩
        · exact Or.inl h
        · exact Or.inr ⟨List.mem_cons_of_mem _ h1, h2⟩
      · intro hmem
        rcases (ih s).2 hmem with h | ⟨h1, h2⟩
        · exact Or.inl h
        · exact Or.inr ⟨List.mem_cons_of_mem _ h1, h2⟩
    | failAfterCreate =>
      simp only [processItems, hdl]
      constructor
      · intro hmem
        rcases (ih _).1 hmem with h | ⟨h1, h2⟩
        · exact Or.inl h
        · exact Or.inr ⟨List.mem_cons_of_mem _ h1, h2⟩
      · intro hmem
        rcases (ih _).2 hmem with h | ⟨h1, h2⟩
        · exact Or.inl h
        · exact Or.inr ⟨List.mem_cons_of_mem _ h1, h2⟩
    | ok =>
      simp only [processItems, hdl]
      cases hdec : w.decodeOk j with
      | true =>
        simp only [hdec, if_true]
        constructor
        · intro hmem
          rcases (ih _).1 hmem with h | ⟨h1, h2⟩
          · rcases List.mem_append.mp h with h' | h'
            · exact Or.inl h'
            · rcases List.mem_singleton.mp h' with h'
              exact Or.inr ⟨h' ▸ List.mem_cons_self _ _, h' ▸ hdl⟩
          · exact Or.inr ⟨List.mem_cons_of_mem _ h1, h2⟩
        · intro hmem
          rcases (ih _).2 hmem with h | ⟨h1, h2⟩
          · rcases List.mem_append.mp h with h' | h'
            · exact Or.inl h'
            · rcases List.mem_singleton.mp h' with h'
              exact Or.inr ⟨h' ▸ List.mem_cons_self _ _, h' ▸ hdl, h' ▸ hdec⟩
          · exact Or.inr ⟨List.mem_cons_of_mem _ h1, h2⟩
      | false =>
        rw [if_neg Bool.false_ne_true]
        constructor
        · intro hmem
          rcases List.mem_append.mp hmem with h' | h'
          · exact Or.inl h'
          · rcases List.mem_singleton.mp h' with h'
            exact Or.inr ⟨h' ▸ List.mem_cons_self _ _, h' ▸ hdl⟩
        · exact Or.inl

/-- Loop invariant: every temp file on disk was either registered in
`temp_files`, or is the leftover of a download whose streaming copy failed
after the file was created. -/
theorem processItems_disk_inv (w : World) (l : List ℕ) (s : RunState)
    (hs : ∀ i ∈ s.disk, i ∈ s.temp_files ∨ w.dl i = .failAfterCreate) :
    ∀ i ∈ (processItems w l s).1.disk,
      i ∈ (processItems w l s).1.temp_files ∨ w.dl i = .failAfterCreate := by
  induction l generalizing s with
  | nil => exact hs
  | cons j rest ih =>
    cases hdl : w.dl j with
    | failBeforeCreate =>
      simp only [processItems, hdl]
      exact ih s hs
    | failAfterCreate =>
      simp only [processItems, hdl]
      refine ih _ ?_
      intro i hi
      rcases List.mem_append.mp hi with h' | h'
      · exact hs i h'
      · rcases List.mem_singleton.mp h' with h'
        exact Or.inr (h' ▸ hdl)
    | ok =>
      simp only [processItems, hdl]
      cases hdec : w.decodeOk j with
      | true =>
        simp only [hdec, if_true]
        refine ih _ ?_
        intro i hi
        rcases List.mem_append.mp hi with h' | h'
        · rcases hs i h' with h | h
          · exact Or.inl (List.mem_append_left _ h)
          · exact Or.inr h
        · rcases List.mem_singleton.mp h' with h'
          exact Or.inl (List.mem_append_right _ (h' ▸ List.mem_singleton_self _))
      | false =>
        rw [if_neg Bool.false_ne_true]
        intro i hi
        rcases List.mem_append.mp hi with h' | h'
        · rcases hs i h' with h | h
          · exact Or.inl (List.mem_append_left _ h)
          · exact Or.inr h
        · rcases List.mem_singleton.mp h' with h'
          exact Or.inl (List.mem_append_right _ (h' ▸ List.mem_singleton_self _))

/-- If no processed item has a successful download followed by a decode
failure, the loop does not raise. -/
theorem processItems_noabort (w : World) (l : List ℕ) (s : RunState)
    (h : ∀ j ∈ l, w.dl j = .ok → w.decodeOk j = true) :
    (processItems w l s).2 = false := by
  induction l generalizing s with
  | nil => rfl
  | cons j rest ih =>
    cases hdl : w.dl j with
    | failBeforeCreate =>
      simp only [processItems, hdl]
      exact ih s fun k hk => h k (List.mem_cons_of_mem _ hk)
    | failAfterCreate =>
      simp only [processItems, hdl]
      exact ih _ fun k hk => h k (List.mem_cons_of_mem _ hk)
    | ok =>
      simp only [processItems, hdl]
      have hdec : w.decodeOk j = true := h j (List.mem_cons_self _ _) hdl
      simp only [hdec, if_true]
      exact ih _ fun k hk => h k (List.mem_cons_of_mem _ hk)

/-- When no processed item aborts the loop, every item whose download
succeeded ends up registered in `temp_files` and composed into
`video_clips`. -/
theorem processItems_complete (w : World) (l : List ℕ) (s : RunState) (i : ℕ)
    (h : ∀ j ∈ l, w.dl j = .ok → w.decodeOk j = true)
    (hi : i ∈ l) (hok : w.dl i = .ok) :
    i ∈ (processItems w l s).1.temp_files ∧
    i ∈ (processItems w l s).1.video_clips := by
  induction l generalizing s with
  | nil => simp at hi
  | cons j rest ih =>
    rcases List.mem_cons.mp hi with hij | hirest
    · subst hij
      have hdec : w.decodeOk i = true := h i (List.mem_cons_self _ _) hok
      simp only [processItems, hok, hdec, if_true]
      constructor
      · exact (processItems_mono w rest _ i).1
          (List.mem_append_right _ (List.mem_singleton_self _))
      · exact (processItems_mono w rest _ i).2
          (List.mem_append_right _ (List.mem_singleton_self _))
    · have h' : ∀ j ∈ rest, w.dl j = .ok → w.decodeOk j = true :=
        fun k hk => h k (List.mem_cons_of_mem _ hk)
      cases hdl : w.dl j with
      | failBeforeCreate =>
        simp only [processItems, hdl]
        exact ih _ h' hirest
      | failAfterCreate =>
        simp only [processItems, hdl]
        exact ih _ h' hirest
      | ok =>
        have hdec : w.decodeOk j = true := h j (List.mem_cons_self _ _) hdl
        simp only [processItems, hdl, hdec, if_true]
        exact ih _ h' hirest

/-- Splitting the loop across a list append: the second half runs only if
the first half did not raise. -/
theorem processItems_append (w : World) (l1 l2 : List ℕ) (s : RunState) :
    processItems w (l1 ++ l2) s =
      (if (processItems w l1 s).2 then processItems w l1 s
       else processItems w l2 (processItems w l1 s).1) := by
  induction l1 generalizing s with
  | nil => simp [processItems]
  | cons i rest ih =>
    cases hdl : w.dl i with
    | failBeforeCreate =>
      simp only [List.cons_append, processItems, hdl]
      exact ih s
    | failAfterCreate =>
      simp only [List.cons_append, processItems, hdl]
      exact ih _
    | ok =>
      simp only [List.cons_append, processItems, hdl]
      cases hdec : w.decodeOk i with
      | true =>
        simp only [hdec, if_true]
        exact ih _
      | false => simp

/-- The loop ignores the world's `os.remove` behavior. -/
theorem processItems_removeOk (w : World) (r : ℕ → Bool) (l : List ℕ) (s : RunState) :
    processItems { w with removeOk := r } l s = processItems w l s := by
  induction l generalizing s with
  | nil => rfl
  | cons i rest ih =>
    cases hdl : w.dl i with
    | failBeforeCreate =>
      simp only [processItems, hdl]
      exact ih s
    | failAfterCreate =>
      simp only [processItems, hdl]
      exact ih _
    | ok =>
      simp only [processItems, hdl]
      cases hdec : w.decodeOk i with
      | true =>
        simp only [hdec, if_true]
        exact ih _
      | false => simp

/-- After the `finally` block, a handle is listed as closed exactly when it
was opened: the guards skip never-opened handles, and the loops close
everything `video_clips` and `temp_gif_clips` track. -/
theorem cleanup_closed_iff (w : World) (s : RunState) (h : Handle) :
    h ∈ openedHandles (cleanup w s) ↔ h ∈ (cleanup w s).closed := by
  cases hA : s.audio_clip <;> cases hB : s.final_video_no_audio <;>
    cases hC : s.final_video <;>
    simp only [cleanup, openedHandles, hA, hB, hC, List.mem_append, List.not_mem_nil,
      false_or, or_false, Bool.false_eq_true, if_true, if_false] <;> tauto

/-- The `finally` block deletes every registered temp file whose `os.remove`
succeeds. -/
theorem cleanup_removes (w : World) (s : RunState) (i : ℕ)
    (hi : i ∈ s.temp_files) (hr : w.removeOk i = true) :
    i ∉ (cleanup w s).disk := by
  intro hmem
  rcases List.mem_filter.mp hmem with ⟨-, hpred⟩
  simp [hi, hr] at hpred

/-- The `finally` block does not touch `temp_files`. -/
theorem cleanup_temp_files (w : World) (s : RunState) :
    (cleanup w s).temp_files = s.temp_files := rfl

/-- Whatever exit path `create_workout_video` takes, the returned state went
through the `finally` block, and its `temp_files`, `disk` (pre-deletion) and
`video_clips` are those produced by the playlist loop. -/
theorem create_state_eq (w : World) (n : ℕ) (o : String) (ha : w.audioOk = true) :
    ∃ s, (create_workout_video w n o).2 = cleanup w s ∧
      s.temp_files =
        (processItems w (List.range n) { initState with audio_clip := true }).1.temp_files ∧
      s.disk =
        (processItems w (List.range n) { initState with audio_clip := true }).1.disk ∧
      s.video_clips =
        (processItems w (List.range n) { initState with audio_clip := true }).1.video_clips := by
  unfold create_workout_video
  rw [if_pos ha]
  dsimp only
  by_cases h1 : (processItems w (List.range n) { initState with audio_clip := true }).2 = true
  · rw [if_pos h1]
    exact ⟨_, rfl, rfl, rfl, rfl⟩
  · rw [if_neg h1]
    by_cases h2 : (processItems w (List.range n)
        { initState with audio_clip := true }).1.video_clips.isEmpty = true
    · rw [if_pos h2]
      exact ⟨_, rfl, rfl, rfl, rfl⟩
    · rw [if_neg h2]
      by_cases h3 : w.renderOk = true
      · rw [if_pos h3]
        exact ⟨_, rfl, rfl, rfl, rfl⟩
      · rw [if_neg h3]
        exact ⟨_, rfl, rfl, rfl, rfl⟩

/-- The run outcome does not depend on whether the temp-file deletes
succeed: a failing `os.remove` is logged and tolerated. -/
theorem create_outcome_removeOk (w : World) (r : ℕ → Bool) (n : ℕ) (o : String) :
    (create_workout_video { w with removeOk := r } n o).1 =
      (create_workout_video w n o).1 := by
  unfold create_workout_video
  dsimp only
  rw [processItems_removeOk]
  by_cases ha : w.audioOk = true
  · rw [if_pos ha, if_pos ha]
    by_cases h1 : (processItems w (List.range n) { initState with audio_clip := true }).2 = true
    · rw [if_pos h1, if_pos h1]
    · rw [if_neg h1, if_neg h1]
      by_cases h2 : (processItems w (List.range n)
          { initState with audio_clip := true }).1.video_clips.isEmpty = true
      · rw [if_pos h2, if_pos h2]
      · rw [if_neg h2, if_neg h2]
        by_cases h3 : w.renderOk = true
        · rw [if_pos h3, if_pos h3]
        · rw [if_neg h3, if_neg h3]
  · rw [if_neg ha, if_neg ha]

/-- C6 (counterexample): with two playlist items whose downloads succeed but
whose first decode fails, the run is aborted by the decode failure — the
`mp.VideoFileClip` call sits outside the per-item `try`, so the exception
reaches the run-level handler — and the second entry is never processed (it
is never even downloaded), refuting "drop the entry and continue". -/
theorem c6_counterexample :
    (create_workout_video ⟨true, fun _ => .ok, fun i => i != 0, true, false,
        fun _ => true⟩ 2 "workout_song.mp4").1 = .exn ∧
    1 ∉ (create_workout_video ⟨true, fun _ => .ok, fun i => i != 0, true, false,
        fun _ => true⟩ 2 "workout_song.mp4").2.temp_files := by decide

/-- C6 (amended): a decode failure on a downloaded asset is fatal to the
run, not per-item: if item `i` is the first item that downloads successfully
but fails to decode, the whole run returns the run-level exception outcome
and no later playlist entry is processed (none of them registers a temp
file).  Only download failures are per-item recoverable. -/
theorem c6_amended (w : World) (n : ℕ) (o : String) (i : ℕ)
    (ha : w.audioOk = true) (hin : i < n)
    (hok : w.dl i = .ok) (hdec : w.decodeOk i = false)
    (hfirst : ∀ j, j < i → w.dl j = .ok → w.decodeOk j = true) :
    (create_workout_video w n o).1 = .exn ∧
    ∀ j, i < j → j ∉ (create_workout_video w n o).2.temp_files := by
  have hsplit : List.range n = List.range' 0 i ++ (i :: List.range' (i + 1) (n - i - 1)) := by
    have h1 : List.range' i (n - i) = i :: List.range' (i + 1) (n - i - 1) := by
      obtain ⟨m, hm⟩ : ∃ m, n - i = m + 1 := ⟨n - i - 1, by omega⟩
      rw [show n - i - 1 = m from by omega, hm, List.range'_succ]
    rw [List.range_eq_range']
    have happ := List.range'_append 0 i (n - i) 1
    simp only [Nat.one_mul, Nat.zero_add] at happ
    rw [show n - i + i = n from by omega] at happ
    rw [← happ, h1]
  have hpre : (processItems w (List.range' 0 i)
      { initState with audio_clip := true }).2 = false := by
    refine processItems_noabort w _ _ ?_
    intro j hj hok'
    refine hfirst j ?_ hok'
    have := List.mem_range'_1.mp hj
    omega
  have habort : processItems w (List.range n) { initState with audio_clip := true } =
      ({ (processItems w (List.range' 0 i) { initState with audio_clip := true }).1 with
          disk := (processItems w (List.range' 0 i)
            { initState with audio_clip := true }).1.disk ++ [i],
          temp_files := (processItems w (List.range' 0 i)
            { initState with audio_clip := true }).1.temp_files ++ [i] }, true) := by
    rw [hsplit, processItems_append, hpre, if_neg Bool.false_ne_true, processItems, hok]
    dsimp only
    rw [hdec, if_neg Bool.false_ne_true]
  constructor
  · unfold create_workout_video
    rw [if_pos ha]
    dsimp only
    rw [habort]
    exact rfl
  · intro j hij hmem
    obtain ⟨s, hs, hst, -, -⟩ := create_state_eq w n o ha
    rw [hs, cleanup_temp_files, hst, habort] at hmem
    rcases List.mem_append.mp hmem with h' | h'
    · rcases (processItems_sub w (List.range' 0 i) _ j).1 h' with h'' | ⟨h1, -⟩
      · simp [initState] at h''
      · have := List.mem_range'_1.mp h1
        omega
    · rcases List.mem_singleton.mp h' with h''
      omega

/-- Witness for `c6_amended`: the concrete two-item run of
`c6_counterexample`, with item `0` as the first decode failure. -/
theorem c6_amended_witness :
    (0 : ℕ) < 2 ∧
    ((create_workout_video ⟨true, fun _ => .ok, fun i => i != 0, true, false,
        fun _ => true⟩ 2 "workout_song.mp4").1 = .exn ∧
      ∀ j, 0 < j → j ∉ (create_workout_video ⟨true, fun _ => .ok, fun i => i != 0, true,
        false, fun _ => true⟩ 2 "workout_song.mp4").2.temp_files) :=
  ⟨by decide,
   c6_amended ⟨true, fun _ => .ok, fun i => i != 0, true, false, fun _ => true⟩ 2
     "workout_song.mp4" 0 rfl (by decide) rfl rfl
     (fun j hj _ => absurd hj (Nat.not_lt_zero j))⟩

/-- C7 (counterexample): with a single playlist item that downloads but
fails to decode, every item failed at fetch or decode and zero composed
clips remain, yet the abort is the run-level exception path, not the
`NoRenderableContent` ("沒有任何影片片段可合成") path, refuting the claim
as stated. -/
theorem c7_counterexample :
    (create_workout_video ⟨true, fun _ => .ok, fun _ => false, true, false,
        fun _ => true⟩ 1 "workout_song.mp4").1 = .exn ∧
    (create_workout_video ⟨true, fun _ => .ok, fun _ => false, true, false,
        fun _ => true⟩ 1 "workout_song.mp4").1 ≠ .noClips := by decide

/-- C7 (amended): if every playlist item fails at fetch (download), zero
composed clips remain, the run aborts with the no-renderable-content path
and produces no output file, and concatenation, muxing and rendering are
never attempted (neither handle is ever opened).  A decode failure instead
aborts the run through the run-level exception handler before the
no-content check — likewise with no output and no render. -/
theorem c7_amended (w : World) (n : ℕ) (o : String) (ha : w.audioOk = true)
    (h : ∀ i, i < n → w.dl i ≠ .ok) :
    (create_workout_video w n o).1 = .noClips ∧
    (create_workout_video w n o).2.output_exists = false ∧
    (create_workout_video w n o).2.final_video_no_audio = false ∧
    (create_workout_video w n o).2.final_video = false := by
  have hnoab : (processItems w (List.range n)
      { initState with audio_clip := true }).2 = false := by
    refine processItems_noabort w _ _ ?_
    intro j hj hok
    exact absurd hok (h j (List.mem_range.mp hj))
  have hvc : (processItems w (List.range n)
      { initState with audio_clip := true }).1.video_clips = [] := by
    rw [List.eq_nil_iff_forall_not_mem]
    intro x hx
    rcases (processItems_sub w (List.range n) _ x).2 hx with h' | ⟨h1, h2, -⟩
    · simp [initState] at h'
    · exact h x (List.mem_range.mp h1) h2
  unfold create_workout_video
  rw [if_pos ha]
  dsimp only
  rw [hnoab, if_neg Bool.false_ne_true, hvc, if_pos List.isEmpty_nil]
  refine ⟨rfl, ?_, ?_, ?_⟩
  · exact (processItems_frame w (List.range n) _).2.2.2.1
  · exact (processItems_frame w (List.range n) _).2.1
  · exact (processItems_frame w (List.range n) _).2.2.1

/-- Witness for `c7_amended`: one item whose download fails before the file
is created. -/
theorem c7_amended_witness :
    (create_workout_video ⟨true, fun _ => .failBeforeCreate, fun _ => true, true, false,
        fun _ => true⟩ 1 "workout_song.mp4").1 = .noClips ∧
    (create_workout_video ⟨true, fun _ => .failBeforeCreate, fun _ => true, true, false,
        fun _ => true⟩ 1 "workout_song.mp4").2.output_exists = false :=
  ⟨(c7_amended ⟨true, fun _ => .failBeforeCreate, fun _ => true, true, false,
      fun _ => true⟩ 1 "workout_song.mp4" rfl
      (fun i _ hok => DlOutcome.noConfusion hok)).1,
   (c7_amended ⟨true, fun _ => .failBeforeCreate, fun _ => true, true, false,
      fun _ => true⟩ 1 "workout_song.mp4" rfl
      (fun i _ hok => DlOutcome.noConfusion hok)).2.1⟩

/-- C8 (counterexample): when the render fails after having started writing
the output container, the failed run leaves the partially written file in
place at the output location — nothing in the `except`/`finally` blocks
removes it — refuting "no partial output file is left in place". -/
theorem c8_counterexample :
    (create_workout_video ⟨true, fun _ => .ok, fun _ => true, false, true,
        fun _ => true⟩ 1 "workout_song.mp4").1 = .exn ∧
    (create_workout_video ⟨true, fun _ => .ok, fun _ => true, false, true,
        fun _ => true⟩ 1 "workout_song.mp4").2.output_exists = true := by decide

/-- C8 (amended): a render failure is fatal to the run — the run-level
handler reports it and returns no output reference — and the cleanup still
runs; but the output location afterwards holds a file exactly when the
failed render had already created one: the partial file is not removed. -/
theorem c8_amended (w : World) (n : ℕ) (o : String) (ha : w.audioOk = true)
    (hr : w.renderOk = false)
    (hsome : ∃ i, i < n ∧ w.dl i = .ok)
    (hdec : ∀ i, i < n → w.dl i = .ok → w.decodeOk i = true) :
    (create_workout_video w n o).1 = .exn ∧
    (create_workout_video w n o).2.output_exists = w.renderLeavesFile ∧
    (create_workout_video w n o).2.cleanup_ran = true := by
  obtain ⟨i, hin, hok⟩ := hsome
  have hnoab : (processItems w (List.range n)
      { initState with audio_clip := true }).2 = false := by
    refine processItems_noabort w _ _ ?_
    intro j hj hok'
    exact hdec j (List.mem_range.mp hj) hok'
  have hvc : i ∈ (processItems w (List.range n)
      { initState with audio_clip := true }).1.video_clips :=
    (processItems_complete w (List.range n) _ i
      (fun j hj hok' => hdec j (List.mem_range.mp hj) hok')
      (List.mem_range.mpr hin) hok).2
  have hvcne : (processItems w (List.range n)
      { initState with audio_clip := true }).1.video_clips.isEmpty = false := by
    cases hvl : (processItems w (List.range n)
        { initState with audio_clip := true }).1.video_clips with
    | nil => rw [hvl] at hvc; simp at hvc
    | cons a l => rfl
  unfold create_workout_video
  rw [if_pos ha]
  dsimp only
  rw [hnoab, if_neg Bool.false_ne_true, hvcne, if_neg Bool.false_ne_true, hr,
    if_neg Bool.false_ne_true]
  exact ⟨rfl, rfl, rfl⟩

/-- Witness for `c8_amended`: one fully successful item, render failing
without having created the output file. -/
theorem c8_amended_witness :
    (create_workout_video ⟨true, fun _ => .ok, fun _ => true, false, false,
        fun _ => true⟩ 1 "workout_song.mp4").1 = .exn ∧
    (create_workout_video ⟨true, fun _ => .ok, fun _ => true, false, false,
        fun _ => true⟩ 1 "workout_song.mp4").2.output_exists = false :=
  ⟨(c8_amended ⟨true, fun _ => .ok, fun _ => true, false, false, fun _ => true⟩ 1
      "workout_song.mp4" rfl rfl ⟨0, by decide, rfl⟩ (fun i _ _ => rfl)).1,
   (c8_amended ⟨true, fun _ => .ok, fun _ => true, false, false, fun _ => true⟩ 1
      "workout_song.mp4" rfl rfl ⟨0, by decide, rfl⟩ (fun i _ _ => rfl)).2.1⟩

/-- C1 (counterexample): one playlist item whose streamed download fails
after `open` created the temp file: the file is on disk when the run ends —
the cleanup ran and every `os.remove` would have succeeded — because
`temp_files.append` sits after the streaming copy, so the file was never
registered for cleanup, refuting "every temporary downloaded file that was
actually created on disk is registered for cleanup and deleted". -/
theorem c1_counterexample :
    0 ∈ (create_workout_video ⟨true, fun _ => .failAfterCreate, fun _ => true, true, false,
        fun _ => true⟩ 1 "workout_song.mp4").2.disk ∧
    0 ∉ (create_workout_video ⟨true, fun _ => .failAfterCreate, fun _ => true, true, false,
        fun _ => true⟩ 1 "workout_song.mp4").2.temp_files ∧
    (create_workout_video ⟨true, fun _ => .failAfterCreate, fun _ => true, true, false,
        fun _ => true⟩ 1 "workout_song.mp4").2.cleanup_ran = true := by decide

/-- C1 (amended): on every exit path of `create_workout_video` the `finally`
release step runs, a handle is closed exactly when it was opened (the guards
protect never-opened handles), every registered temp file whose delete
succeeds is removed from disk, only fully downloaded items are registered,
every fully downloaded item is registered when no decode failure aborts the
loop, a failing delete is tolerated (it never changes the run outcome) —
but a temp file surviving cleanup need not have had a failing delete: it can
also be the never-registered leftover of a download whose streaming copy
failed after the file was created. -/
theorem c1_amended (w : World) (n : ℕ) (o : String) :
    (create_workout_video w n o).2.cleanup_ran = true ∧
    (∀ h : Handle, h ∈ openedHandles (create_workout_video w n o).2 ↔
      h ∈ (create_workout_video w n o).2.closed) ∧
    (∀ i ∈ (create_workout_video w n o).2.temp_files,
      w.removeOk i = true → i ∉ (create_workout_video w n o).2.disk) ∧
    (∀ i ∈ (create_workout_video w n o).2.temp_files, w.dl i = .ok ∧ i < n) ∧
    ((∀ j, j < n → w.dl j = .ok → w.decodeOk j = true) → w.audioOk = true →
      ∀ i, i < n → w.dl i = .ok →
        i ∈ (create_workout_video w n o).2.temp_files) ∧
    (∀ i ∈ (create_workout_video w n o).2.disk,
      w.dl i = .failAfterCreate ∨ w.removeOk i = false) ∧
    (∀ r : ℕ → Bool, (create_workout_video { w with removeOk := r } n o).1 =
      (create_workout_video w n o).1) := by
  by_cases ha : w.audioOk = true
  · obtain ⟨s, hs, hst, hsd, -⟩ := create_state_eq w n o ha
    refine ⟨?_, ?_, ?_, ?_, ?_, ?_, ?_⟩
    · rw [hs]; rfl
    · intro h
      rw [hs]
      exact cleanup_closed_iff w s h
    · intro i hi hr
      rw [hs, cleanup_temp_files] at hi
      rw [hs]
      exact cleanup_removes w s i hi hr
    · intro i hi
      rw [hs, cleanup_temp_files, hst] at hi
      rcases (processItems_sub w (List.range n) _ i).1 hi with h' | ⟨h1, h2⟩
      · simp [initState] at h'
      · exact ⟨h2, List.mem_range.mp h1⟩
    · intro hall _ i hin hok
      rw [hs, cleanup_temp_files, hst]
      exact (processItems_complete w (List.range n) _ i
        (fun j hj hok' => hall j (List.mem_range.mp hj) hok')
        (List.mem_range.mpr hin) hok).1
    · intro i hidisk
      rw [hs] at hidisk
      rcases List.mem_filter.mp hidisk with ⟨hmem, hpred⟩
      by_cases hfa : w.dl i = .failAfterCreate
      · exact Or.inl hfa
      · right
        have hmem' : i ∈ (processItems w (List.range n)
            { initState with audio_clip := true }).1.disk := hsd ▸ hmem
        rcases processItems_disk_inv w (List.range n) _
            (by intro x hx; simp [initState] at hx) i hmem' with htf | hfa'
        · have hc : s.temp_files.contains i = true := by
            rw [hst]
            exact List.elem_eq_true_of_mem htf
          rw [hc] at hpred
          cases hrm : w.removeOk i
          · rfl
          · rw [hrm] at hpred
            simp at hpred
        · exact absurd hfa' hfa
    · intro r
      exact create_outcome_removeOk w r n o
  · have hform : create_workout_video w n o = (.exn, cleanup w initState) := by
      unfold create_workout_video
      rw [if_neg ha]
    refine ⟨?_, ?_, ?_, ?_, ?_, ?_, ?_⟩
    · rw [hform]; rfl
    · intro h
      rw [hform]
      exact cleanup_closed_iff w initState h
    · intro i hi
      rw [hform] at hi
      simp [cleanup, initState] at hi
    · intro i hi
      rw [hform] at hi
      simp [cleanup, initState] at hi
    · intro _ ha'
      exact absurd ha' ha
    · intro i hi
      rw [hform] at hi
      simp [cleanup, initState] at hi
    · intro r
      exact create_outcome_removeOk w r n o

/-- Witness for `c1_amended`: one fully successful item — its temp file is
registered and, since deletes succeed, gone from disk at the end. -/
theorem c1_amended_witness :
    (create_workout_video ⟨true, fun _ => .ok, fun _ => true, true, false,
        fun _ => true⟩ 1 "workout_song.mp4").2.cleanup_ran = true ∧
    0 ∈ (create_workout_video ⟨true, fun _ => .ok, fun _ => true, true, false,
        fun _ => true⟩ 1 "workout_song.mp4").2.temp_files ∧
    0 ∉ (create_workout_video ⟨true, fun _ => .ok, fun _ => true, true, false,
        fun _ => true⟩ 1 "workout_song.mp4").2.disk := by
  have h := c1_amended ⟨true, fun _ => .ok, fun _ => true, true, false, fun _ => true⟩ 1
    "workout_song.mp4"
  have hmem := h.2.2.2.2.1 (fun j _ _ => rfl) rfl 0 (by decide) rfl
  exact ⟨h.1, hmem, h.2.2.1 0 hmem rfl⟩

end WorkoutApp
